import Mathlib

/-!
Verification of the Unframe synchronization engine: a shallow embedding of
the batch file processor (`processOwner`, `validateFileData`,
`sanitizeFileData`, `processFiles`) and of the Google auth/listing service
(`initialize`, `verifyAndInitializeAuth`, `loadSavedTokens`,
`setCredentials`, `listFiles`), together with theorems about their
error-handling, merging and query-construction behaviour.

JavaScript's dynamically typed record fields are embedded as a small
`JsValue` type carrying the cases the processor actually distinguishes
(truthiness, `typeof`, `Number`/`String`/`Date` coercion, arrays, and the
owner objects consumed by `processOwner`).
-/

namespace Unframe

mutual

/-- Embedding of the JavaScript values that flow through the sync pipeline.
`ownerObj` is an object carrying the four properties `processOwner` reads;
`genObj` stands for any other (non-array, non-owner) object. -/
inductive JsValue where
  | undefined
  | null
  | boolV (b : Bool)
  | numV (n : Int)
  | strV (s : String)
  | ownerObj (emailAddress displayName photoLink permissionId : JsValue)
  | arrV (elems : JsList)
  | genObj
deriving Repr, DecidableEq

/-- A JavaScript array's element list. -/
inductive JsList where
  | nil
  | cons (head : JsValue) (tail : JsList)
deriving Repr, DecidableEq

end

namespace JsValue

/-- JavaScript truthiness: `undefined`, `null`, `false`, `0` and `""` are
falsy; every object and array is truthy. -/
def truthy : JsValue → Bool
  | undefined => false
  | null => false
  | boolV b => b
  | numV n => n != 0
  | strV s => s ≠ ""
  | ownerObj _ _ _ _ => true
  | arrV _ => true
  | genObj => true

/-- JavaScript `typeof`. -/
def typeOf : JsValue → String
  | undefined => "undefined"
  | null => "object"
  | boolV _ => "boolean"
  | numV _ => "number"
  | strV _ => "string"
  | ownerObj _ _ _ _ => "object"
  | arrV _ => "object"
  | genObj => "object"

/-- Whitespace for the purposes of `Number`'s string trimming. -/
def isSpaceChar (c : Char) : Bool :=
  c = ' ' || c = '\t' || c = '\n' || c = '\r'

/-- Both-ends whitespace trim over a character list. -/
def trimChars (l : List Char) : List Char :=
  ((l.dropWhile isSpaceChar).reverse.dropWhile isSpaceChar).reverse

/-- Model of JavaScript numeric-string coercion: `Number(s)` is not `NaN`
exactly when the trimmed string is empty (coerces to `0`) or is an
optionally signed digit string. (Decimal/exponent/hex forms that `Number`
also accepts are outside what the repository's data exercises.) -/
def strNumeric (s : String) : Bool :=
  let t := trimChars s.data
  t.isEmpty ||
    (let core := if t.head? = some '-' ∨ t.head? = some '+' then t.tail else t
     !core.isEmpty && core.all Char.isDigit)

/-- Model of `isNaN(Number(v))`. `Number(undefined)` is `NaN`;
`Number(null)`, booleans and numbers coerce to numbers; strings follow
`strNumeric`; plain objects coerce to `NaN`; an array coerces through its
single element (`Number([]) = 0`, multi-element arrays give `NaN`). -/
def numberIsNaN : JsValue → Bool
  | undefined => true
  | null => false
  | boolV _ => false
  | numV _ => false
  | strV s => !(strNumeric s)
  | ownerObj _ _ _ _ => true
  | arrV .nil => false
  | arrV (.cons (numV _) .nil) => false
  | arrV (.cons (strV s) .nil) => !(strNumeric s)
  | arrV _ => true
  | genObj => true

/-- Model of the check `new Date(v).toString() === 'Invalid Date'`:
numbers and booleans always construct valid dates, strings are accepted
when they look like a date/time literal (digits and the usual separator
characters), plain objects are invalid. -/
def dateStringOk (s : String) : Bool :=
  !s.data.isEmpty && s.data.all (fun c =>
    c.isDigit || c = '-' || c = ':' || c = 'T' || c = 'Z' || c = '.' ||
    c = ' ' || c = '+' || c = '/')

/-- Model of `new Date(v).toString() === 'Invalid Date'`. -/
def dateInvalid : JsValue → Bool
  | undefined => true
  | null => false
  | boolV _ => false
  | numV _ => false
  | strV s => !(dateStringOk s)
  | ownerObj _ _ _ _ => true
  | arrV _ => true
  | genObj => true

/-- One-level rendering of an array element under `String(array)` (nested
structure renders as objects do). -/
def renderElem : JsValue → String
  | strV s => s
  | numV n => toString n
  | null => ""
  | undefined => ""
  | boolV true => "true"
  | boolV false => "false"
  | _ => "[object Object]"

/-- Rendering of each element of an array for `String(array)`. -/
def renderList : JsList → List String
  | .nil => []
  | .cons e t => renderElem e :: renderList t

/-- JavaScript `String(v)` coercion; arrays join their elements with `,`. -/
def toStringJs : JsValue → String
  | undefined => "undefined"
  | null => "null"
  | boolV true => "true"
  | boolV false => "false"
  | numV n => toString n
  | strV s => s
  | ownerObj _ _ _ _ => "[object Object]"
  | arrV elems => String.intercalate "," (renderList elems)
  | genObj => "[object Object]"

/-- JavaScript `v || null`, as used for the nullable user fields. -/
def orNull (v : JsValue) : JsValue :=
  if v.truthy then v else null

/-- Property access `v.emailAddress`: `undefined` on non-owner values. -/
def emailAddress : JsValue → JsValue
  | ownerObj e _ _ _ => e
  | _ => undefined

/-- Property access `v.displayName`. -/
def displayName : JsValue → JsValue
  | ownerObj _ d _ _ => d
  | _ => undefined

/-- Property access `v.photoLink`. -/
def photoLink : JsValue → JsValue
  | ownerObj _ _ p _ => p
  | _ => undefined

/-- Property access `v.permissionId`. -/
def permissionId : JsValue → JsValue
  | ownerObj _ _ _ p => p
  | _ => undefined

/-- `Array.isArray(v)`. -/
def isArray : JsValue → Bool
  | arrV _ => true
  | _ => false

/-- `v?.[0]`: first element of an array, `undefined` otherwise. -/
def firstElem : JsValue → JsValue
  | arrV (.cons x _) => x
  | _ => undefined

end JsValue

/-- The untrusted external file representation handed to the batch
processor (one element of a sync job's `files`). Absent properties are
`undefined`. -/
structure RawFileRecord where
  id : JsValue := .undefined
  name : JsValue := .undefined
  mimeType : JsValue := .undefined
  size : JsValue := .undefined
  createdTime : JsValue := .undefined
  modifiedTime : JsValue := .undefined
  shared : JsValue := .undefined
  trashed : JsValue := .undefined
  iconLink : JsValue := .undefined
  webViewLink : JsValue := .undefined
  version : JsValue := .undefined
  owner : JsValue := .undefined
  owners : JsValue := .undefined
  lastModifyingUser : JsValue := .undefined
  permissions : JsValue := .undefined
  capabilities : JsValue := .undefined
deriving Repr, DecidableEq

/-- Model of JavaScript `s.includes(pattern)`. -/
def strIncludes (s pattern : String) : Bool :=
  decide (List.IsInfix pattern.data s.data)

/-! ## The batch processor (`services/queue/processor.js`)

`processOwner`, `validateFileData`, `sanitizeFileData` and `processFiles`,
embedded over explicit stores.  The canonical store's `User.findOrCreate`,
`user.update` and `File.upsert` are modelled as operations on in-memory
lists; store exceptions (the subject of the error-handling claims) are
injected through a `ProcEnv` that lists the permission ids for which
`User.findOrCreate` throws and the file ids for which the success-path
`File.upsert` throws.  `new Date()` is modelled by the `now` timestamp of
the environment.  `user.updateStats()` (aggregate statistics) is outside
the claims and modelled as a no-op. -/

/-- A row of the `User` table.  `uid` is the database-assigned primary key
(`user.id`). -/
structure User where
  uid : Nat
  permissionId : JsValue
  email : JsValue
  displayName : JsValue
  photoLink : JsValue
deriving Repr, DecidableEq

/-- The `User` table: rows plus the next primary key. -/
structure UserStore where
  users : List User := []
  nextUid : Nat := 0
deriving Repr, DecidableEq

/-- `User.findOrCreate({where: {permissionId}, defaults: {...}})`: returns
the first row matching the permission id, or inserts a new row built from
the defaults.  The second component is sequelize's `created` flag. -/
def UserStore.findOrCreate (st : UserStore) (ownerData : JsValue) :
    UserStore × User × Bool :=
  match st.users.find? (fun u => u.permissionId == ownerData.permissionId) with
  | some u => (st, u, false)
  | none =>
      let u : User :=
        { uid := st.nextUid,
          permissionId := ownerData.permissionId,
          email := ownerData.emailAddress,
          displayName := ownerData.displayName.orNull,
          photoLink := ownerData.photoLink.orNull }
      ({ users := st.users ++ [u], nextUid := st.nextUid + 1 }, u, true)

/-- `processOwner(ownerData)`.  `failPids` lists the permission ids for
which the store call inside the `try` block throws; the surrounding
`catch` turns any such exception into a `null` owner. -/
def processOwner (failPids : List JsValue) (st : UserStore) (ownerData : JsValue) :
    UserStore × Option User :=
  if ¬ ownerData.truthy ∨ ¬ ownerData.emailAddress.truthy ∨
      ¬ ownerData.permissionId.truthy then
    (st, none)
  else if ownerData.permissionId ∈ failPids then
    (st, none)
  else
    let (st1, u, created) := st.findOrCreate ownerData
    if ¬ created ∧ (u.email ≠ ownerData.emailAddress ∨
        u.displayName ≠ ownerData.displayName ∨ u.photoLink ≠ ownerData.photoLink) then
      let u' : User :=
        { u with
          email := ownerData.emailAddress,
          displayName := ownerData.displayName.orNull,
          photoLink := ownerData.photoLink.orNull }
      ({ st1 with users := st1.users.map (fun w => if w.uid = u.uid then u' else w) },
       some u')
    else
      (st1, some u)

/-- Errors pushed by the required-fields loop of `validateFileData`. -/
def requiredFieldErrors (fd : RawFileRecord) : List String :=
  (if fd.id.truthy then [] else ["Missing required field: id"]) ++
  (if fd.name.truthy then [] else ["Missing required field: name"]) ++
  (if fd.mimeType.truthy then [] else ["Missing required field: mimeType"])

/-- `fileData.id && typeof fileData.id !== 'string'`. -/
def idTypeError (fd : RawFileRecord) : List String :=
  if fd.id.truthy ∧ fd.id.typeOf ≠ "string" then
    ["Invalid id type: expected string, got " ++ fd.id.typeOf]
  else []

/-- `fileData.size && isNaN(Number(fileData.size))`. -/
def sizeError (fd : RawFileRecord) : List String :=
  if fd.size.truthy ∧ fd.size.numberIsNaN then
    ["Invalid size format: " ++ fd.size.toStringJs]
  else []

/-- One iteration of the date-field validation loop. -/
def dateFieldError (fieldName : String) (v : JsValue) : List String :=
  if v.truthy ∧ v.dateInvalid then
    ["Invalid " ++ fieldName ++ " format: " ++ v.toStringJs]
  else []

/-- One iteration of the boolean-field validation loop (note the guard is
`!== undefined`, not truthiness). -/
def boolFieldError (fieldName : String) (v : JsValue) : List String :=
  if v ≠ JsValue.undefined ∧ v.typeOf ≠ "boolean" then
    ["Invalid " ++ fieldName ++ " type: expected boolean, got " ++ v.typeOf]
  else []

/-- One iteration of the URL-field validation loop. -/
def urlFieldError (fieldName : String) (v : JsValue) : List String :=
  if v.truthy ∧ v.typeOf ≠ "string" then
    ["Invalid " ++ fieldName ++ " type: expected string URL, got " ++ v.typeOf]
  else []

/-- The object- and array-shape checks of `validateFileData`. -/
def shapeErrors (fd : RawFileRecord) : List String :=
  (if fd.owner.truthy ∧ fd.owner.typeOf ≠ "object" then
    ["Invalid owner format: expected object"] else []) ++
  (if fd.lastModifyingUser.truthy ∧ fd.lastModifyingUser.typeOf ≠ "object" then
    ["Invalid lastModifyingUser format: expected object"] else []) ++
  (if fd.permissions.truthy ∧ ¬ fd.permissions.isArray then
    ["Invalid permissions format: expected array"] else [])

/-- All blocking errors of `validateFileData`, in push order. -/
def validationErrors (fd : RawFileRecord) : List String :=
  requiredFieldErrors fd ++ idTypeError fd ++ sizeError fd ++
  dateFieldError "createdTime" fd.createdTime ++
  dateFieldError "modifiedTime" fd.modifiedTime ++
  boolFieldError "shared" fd.shared ++ boolFieldError "trashed" fd.trashed ++
  urlFieldError "iconLink" fd.iconLink ++ urlFieldError "webViewLink" fd.webViewLink ++
  shapeErrors fd

/-- The non-blocking missing-optional-field warnings. -/
def validationWarnings (fd : RawFileRecord) : List String :=
  (if fd.iconLink.truthy then [] else ["Missing optional field: iconLink"]) ++
  (if fd.webViewLink.truthy then [] else ["Missing optional field: webViewLink"]) ++
  (if fd.size.truthy then [] else ["Missing optional field: size"]) ++
  (if fd.version.truthy then [] else ["Missing optional field: version"])

inductive SyncStatus where
  | success
  | error
deriving Repr, DecidableEq

/-- The sanitized shape produced by `sanitizeFileData` (the object handed
to `File.upsert` on the success path, after `userId` is attached). -/
structure SanitizedFile where
  id : String
  name : String
  mimeType : String
  iconLink : Option String
  webViewLink : Option String
  size : Option String
  shared : Bool
  trashed : Bool
  createdTime : Option JsValue
  modifiedTime : Option JsValue
  version : Option String
  owner : JsValue
  lastModifyingUser : JsValue
  permissions : JsList
  capabilities : JsValue
  metadata : RawFileRecord
  syncStatus : SyncStatus
  lastSyncAttempt : Nat
  userId : Option Nat := none
deriving Repr, DecidableEq

/-- `sanitizeFileData(fileData)`.  `new Date(v)` is modelled as retaining
the source value (`Option JsValue`), and the `new Date()` timestamp by the
environment's `now`. -/
def sanitizeFileData (now : Nat) (fd : RawFileRecord) : SanitizedFile :=
  { id := fd.id.toStringJs
    name := fd.name.toStringJs
    mimeType := fd.mimeType.toStringJs
    iconLink := if fd.iconLink.truthy then some fd.iconLink.toStringJs else none
    webViewLink := if fd.webViewLink.truthy then some fd.webViewLink.toStringJs else none
    size := if fd.size.truthy then some fd.size.toStringJs else none
    shared := fd.shared.truthy
    trashed := fd.trashed.truthy
    createdTime := if fd.createdTime.truthy then some fd.createdTime else none
    modifiedTime := if fd.modifiedTime.truthy then some fd.modifiedTime else none
    version := if fd.version.truthy then some fd.version.toStringJs else none
    owner := fd.owners.firstElem.orNull
    lastModifyingUser := fd.lastModifyingUser.orNull
    permissions := match fd.permissions with | .arrV l => l | _ => .nil
    capabilities := fd.capabilities.orNull
    metadata := fd
    syncStatus := .success
    lastSyncAttempt := now }

/-- The result object of `validateFileData`. -/
structure ValidationResult where
  isValid : Bool
  errors : List String
  warnings : List String
  sanitizedData : SanitizedFile
deriving Repr, DecidableEq

/-- `validateFileData(fileData)`: collects errors and warnings and always
computes the sanitized shape alongside. -/
def validateFileData (now : Nat) (fd : RawFileRecord) : ValidationResult :=
  { isValid := (validationErrors fd).isEmpty
    errors := validationErrors fd
    warnings := validationWarnings fd
    sanitizedData := sanitizeFileData now fd }

/-- `errorLog` written with a degraded row: `{error, timestamp, details}`.
The JavaScript stack trace (`error.stack`) is modelled by the message. -/
structure ErrorLog where
  error : String
  timestamp : Nat
  details : String
deriving Repr, DecidableEq

/-- A row of the `File` table: either the sanitized success shape or the
degraded shape `{id, metadata, syncStatus: 'error', lastSyncAttempt,
errorLog}` written from the per-item `catch` block. -/
inductive FileRow where
  | ok (data : SanitizedFile)
  | degraded (id : JsValue) (metadata : RawFileRecord) (lastSyncAttempt : Nat)
      (errorLog : ErrorLog)
deriving Repr, DecidableEq

/-- The unique key a row is stored under (a success row's `id` is the
sanitized string id). -/
def FileRow.fileId : FileRow → JsValue
  | .ok d => .strV d.id
  | .degraded i _ _ _ => i

/-- The row's `syncStatus` column. -/
def FileRow.status : FileRow → SyncStatus
  | .ok d => d.syncStatus
  | .degraded _ _ _ _ => .error

/-- `File.upsert`: replace the row with the same id, or insert. -/
def upsertFile (rows : List FileRow) (row : FileRow) : List FileRow :=
  if rows.any (fun r => r.fileId == row.fileId) then
    rows.map (fun r => if r.fileId == row.fileId then row else r)
  else rows ++ [row]

/-- One element of the batch result's `errors` array. -/
structure ErrorEntry where
  fileId : JsValue
  error : String
  validationErrors : Option String
deriving Repr, DecidableEq

/-- The aggregate batch report returned by `processFiles`
(`validationIssues` is initialized and never appended to). -/
structure BatchResult where
  success : Nat := 0
  failed : Nat := 0
  errors : List ErrorEntry := []
  validationIssues : List String := []
  usersProcessed : Nat := 0
deriving Repr, DecidableEq

/-- Failure injection for the store collaborators plus the clock.
`failOwnerPids`: permission ids for which `User.findOrCreate` throws;
`failUpsertIds`: raw file ids for which the success-path `File.upsert`
throws (the degraded-path upsert is modelled as succeeding, as the claims
assume store availability for the degraded write). -/
structure ProcEnv where
  now : Nat := 0
  failOwnerPids : List JsValue := []
  failUpsertIds : List JsValue := []

/-- The two canonical-store tables. -/
structure Stores where
  users : UserStore := {}
  files : List FileRow := []
deriving Repr, DecidableEq

/-- Message of the modelled store exception thrown by an injected
`File.upsert` failure. -/
def upsertFailureMessage : String := "database upsert failed"

/-- The error entry pushed by the per-item `catch` block:
`{fileId, error, validationErrors: error.message.includes('Validation
failed') ? error.message : null}`. -/
def mkErrorEntry (fd : RawFileRecord) (msg : String) : ErrorEntry :=
  { fileId := fd.id, error := msg,
    validationErrors := if strIncludes msg "Validation failed" then some msg else none }

/-- The rest of the per-item `catch` block: push the error entry, then
upsert the degraded row. -/
def itemFailure (env : ProcEnv) (fd : RawFileRecord) (msg : String)
    (users1 : UserStore) (st : Stores) (res : BatchResult) : Stores × BatchResult :=
  ({ users := users1,
     files := upsertFile st.files (.degraded fd.id fd env.now
       { error := msg, timestamp := env.now, details := msg }) },
   { res with failed := res.failed + 1, errors := res.errors ++ [mkErrorEntry fd msg] })

/-- One item of the `batch.map` body in `processFiles`: owner resolution,
validation, sanitized upsert on success, degraded upsert in the `catch`.
`user.updateStats()` is a no-op in the model. -/
def processItem (env : ProcEnv) (acc : Stores × BatchResult) (fd : RawFileRecord) :
    Stores × BatchResult :=
  let (st, res) := acc
  let (users1, user) := processOwner env.failOwnerPids st.users fd.owner
  let res1 := if user.isSome then { res with usersProcessed := res.usersProcessed + 1 }
              else res
  let validation := validateFileData env.now fd
  if ¬ validation.isValid then
    itemFailure env fd
      ("Validation failed: " ++ String.intercalate ", " validation.errors) users1 st res1
  else if env.failUpsertIds.contains fd.id then
    itemFailure env fd upsertFailureMessage users1 st res1
  else
    ({ users := users1,
       files := upsertFile st.files (.ok
         { validation.sanitizedData with userId := user.map (·.uid) }) },
     { res1 with success := res1.success + 1 })

/-- The chunked loop of `processFiles`: slices of `batchSize = 500`
processed in order (the in-chunk `Promise.all` over independent,
order-insensitive items is modelled sequentially). -/
def processChunks (env : ProcEnv) (acc : Stores × BatchResult) :
    List RawFileRecord → Stores × BatchResult
  | [] => acc
  | x :: xs =>
      processChunks env ((x :: xs.take 499).foldl (processItem env) acc) (xs.drop 499)
termination_by l => l.length
decreasing_by simp [List.length_drop]; omega

/-- `processFiles(task)`: fresh result counters, then the chunked loop
over `task.files` (the destructured `type` is unused by the code). -/
def processFiles (env : ProcEnv) (st : Stores) (files : List RawFileRecord) :
    Stores × BatchResult :=
  processChunks env (st, {}) files

/-- Does processing this item reach the per-item `catch` block?  In the
model this happens when validation fails or when the success-path
`File.upsert` is injected to throw.  (Owner resolution is absent here:
`processOwner` catches its own store exceptions.) -/
def itemThrows (env : ProcEnv) (fd : RawFileRecord) : Bool :=
  !(validateFileData env.now fd).isValid || env.failUpsertIds.contains fd.id

/-- The message of the exception the per-item `catch` block receives. -/
def itemErrMsg (env : ProcEnv) (fd : RawFileRecord) : String :=
  if (validateFileData env.now fd).isValid then upsertFailureMessage
  else "Validation failed: " ++
    String.intercalate ", " (validateFileData env.now fd).errors

/-- The degraded row the per-item `catch` block upserts for `fd`. -/
def degradedRow (env : ProcEnv) (fd : RawFileRecord) : FileRow :=
  .degraded fd.id fd env.now
    { error := itemErrMsg env fd, timestamp := env.now, details := itemErrMsg env fd }

/-- Does the file store hold a row for this record's observed id (the raw
id for degraded rows, the string-coerced id for success rows)? -/
def hasRowFor (rows : List FileRow) (fd : RawFileRecord) : Bool :=
  rows.any fun r => r.fileId == fd.id || r.fileId == .strV fd.id.toStringJs

/-! ## The auth/listing service (`services/google.service.js`)

The settings store (`systemSettingsService`), the OAuth client and the
provider endpoints are external collaborators; their outcomes (refresh
response, code-exchange response, API probe) are supplied through a
`GEnv`.  The state carries the persisted settings records, the in-memory
client/credentials, the authentication flag and the log of emitted
lifecycle events. -/

/-- The persisted token record `{access_token, refresh_token,
expiry_date}`.  `none` stands for an absent key (`undefined`/`null` are
not distinguished; no claim rests on that difference). -/
structure TokenRecord where
  access_token : Option String := none
  refresh_token : Option String := none
  expiry_date : Option Int := none
deriving Repr, DecidableEq

/-- JavaScript truthiness of an optional string property. -/
def optTruthy : Option String → Bool
  | some s => s ≠ ""
  | none => false

/-- Object spread `{...a, ...b}` over token records: keys present in `b`
win. -/
def spreadTok (a b : TokenRecord) : TokenRecord :=
  { access_token := b.access_token.orElse fun _ => a.access_token
    refresh_token := b.refresh_token.orElse fun _ => a.refresh_token
    expiry_date := b.expiry_date.orElse fun _ => a.expiry_date }

/-- The spread of a possibly `null` object (`{...null}` contributes no
keys). -/
def emptyTok : TokenRecord := {}

/-- JavaScript `x || y` on optional string properties. -/
def jsOrStr (a b : Option String) : Option String :=
  if optTruthy a then a else b

/-- The lifecycle events the service emits. -/
inductive GEvent where
  | authenticated
  | authenticationRequired
  | authenticationFailed
  | tokensUpdated
deriving Repr, DecidableEq

/-- The provider settings record (`"google"` key of the settings store). -/
structure GoogleConfig where
  clientId : String := ""
  clientSecret : String := ""
  redirectUri : Option String := none
deriving Repr, DecidableEq

/-- Service state: persisted settings records plus the in-memory session. -/
structure GState where
  googleConfig : Option GoogleConfig := none
  googleTokens : Option TokenRecord := none
  authClient : Option GoogleConfig := none
  credentials : Option TokenRecord := none
  driveReady : Bool := false
  isAuthenticated : Bool := false
  markedReady : Bool := false
  refreshAttempts : Nat := 0
  events : List GEvent := []
deriving Repr, DecidableEq

/-- External outcomes: the clock, the result `auth.refreshToken` would
return, and whether the `drive.files.list({pageSize: 1})` probe succeeds. -/
structure GEnv where
  now : Int := 0
  refreshResult : Except Unit TokenRecord := .error ()
  probeOk : Bool := true

/-- `const expiryDate = new Date(tokens.expiry_date); now >= expiryDate` —
with an absent `expiry_date` the comparison against an invalid date is
false. -/
def tokenExpired (now : Int) (tok : TokenRecord) : Bool :=
  match tok.expiry_date with
  | some e => decide (e ≤ now)
  | none => false

/-- `loadSavedTokens()`: loads the persisted record; if expired with a
refresh token present, attempts one refresh and on success persists the
merged record (spread of old and refreshed, with `refresh_token` pinned to
the stored one); otherwise installs the stored record directly. -/
def loadSavedTokens (env : GEnv) (st : GState) : GState × Bool :=
  match st.googleTokens with
  | none => ({ st with isAuthenticated := false }, false)
  | some tok =>
    if tokenExpired env.now tok ∧ optTruthy tok.refresh_token then
      let st1 := { st with refreshAttempts := st.refreshAttempts + 1 }
      match env.refreshResult with
      | .ok rtoks =>
          let merged := { spreadTok tok rtoks with refresh_token := tok.refresh_token }
          ({ st1 with
              googleTokens := some merged,
              credentials := some merged,
              isAuthenticated := true,
              events := st1.events ++ [.authenticated] }, true)
      | .error _ => ({ st1 with isAuthenticated := false }, false)
    else
      ({ st with
          credentials := some tok,
          isAuthenticated := true,
          events := st.events ++ [.authenticated] }, true)

/-- `verifyAndInitializeAuth()`: load the saved tokens, and when loaded
probe the listing endpoint; a probe failure clears the persisted tokens
and emits `authenticationFailed` then `authenticationRequired`; an
unloadable token record emits `authenticationRequired`. -/
def verifyAndInitializeAuth (env : GEnv) (st : GState) : GState × Bool :=
  let (st1, loaded) := loadSavedTokens env st
  if loaded ∧ st1.credentials.isSome then
    if env.probeOk then
      ({ st1 with
          isAuthenticated := true,
          events := st1.events ++ [.authenticated] }, true)
    else
      ({ st1 with
          googleTokens := none,
          isAuthenticated := false,
          events := st1.events ++ [.authenticationFailed, .authenticationRequired] },
       false)
  else
    ({ st1 with events := st1.events ++ [.authenticationRequired] }, false)

/-- `new google.auth.OAuth2(...)` plus `google.drive(...)`: a fresh client
with no credentials installed yet. -/
def configureClient (cfg : GoogleConfig) (st : GState) : GState :=
  { st with authClient := some cfg, credentials := none, driveReady := true }

/-- `initialize()`: absent or falsy `"google"` settings leave the service
unconfigured and return false (no throw); otherwise construct the client,
run `verifyAndInitializeAuth` (its outcome is not consulted), mark the
service initialized and return true. -/
def initService (env : GEnv) (st : GState) : GState × Bool :=
  match st.googleConfig with
  | none => (st, false)
  | some cfg =>
      let (st2, _) := verifyAndInitializeAuth env (configureClient cfg st)
      ({ st2 with markedReady := true }, true)

/-- `setCredentials(code)`: the code→token exchange outcome is supplied by
the environment; on exchange failure the error is rethrown with
`isAuthenticated` cleared; on success the merged record (spread of the
existing persisted record and the exchange response, with `refresh_token`
falling back to the existing one when the response's is falsy) is
installed, persisted, and returned. -/
def setCredentials (exchangeResult : Except Unit TokenRecord) (st : GState) :
    GState × Except Unit TokenRecord :=
  match exchangeResult with
  | .error e => ({ st with isAuthenticated := false }, .error e)
  | .ok toks =>
      let existing := st.googleTokens
      let merged :=
        { spreadTok (existing.getD emptyTok) toks with
          refresh_token :=
            jsOrStr toks.refresh_token (existing.bind TokenRecord.refresh_token) }
      ({ st with
          credentials := some merged,
          googleTokens := some merged,
          isAuthenticated := true,
          events := st.events ++ [.authenticated] }, .ok merged)

/-- Model of `new Date(v).toISOString()`: the rendering itself is external
library behaviour, modelled as an injective encoding of the source value. -/
def dateToISOString (v : String) : String := "ISO:" ++ v

/-- The `queryString` accumulation of `listFiles`: the modifiedTime clause
when `filters?.modifiedTime` is truthy, then the free-text query appended
with `" and "` when a clause is already present. -/
def listFilesQueryString (modifiedTime query : Option String) : String :=
  let s1 :=
    if optTruthy modifiedTime then
      "modifiedTime > '" ++ dateToISOString (modifiedTime.getD "") ++ "'"
    else ""
  if optTruthy query then
    (if s1 ≠ "" then s1 ++ " and " ++ query.getD "" else query.getD "")
  else s1

/-- The request object `listFiles` sends to the provider. -/
structure ListParams where
  pageSize : Option Nat
  pageToken : Option String
  fields : String
  orderBy : String
  q : Option String
deriving Repr, DecidableEq

/-- The `params` construction of `listFiles`, with `q: queryString ||
undefined` omitting an empty filter expression. -/
def listFilesParams (pageSize : Option Nat) (pageToken : Option String)
    (modifiedTime query : Option String) : ListParams :=
  { pageSize := pageSize,
    pageToken := pageToken,
    fields := "nextPageToken, files(id, name, mimeType, modifiedTime, owners, size)",
    orderBy := "modifiedTime desc",
    q :=
      let s := listFilesQueryString modifiedTime query
      if s = "" then none else some s }

/-- A provider listing response (`response.data`). -/
structure DriveListResponse where
  files : List RawFileRecord := []
  nextPageToken : Option String := none
deriving Repr, DecidableEq

/-- The value `listFiles` returns to its caller. -/
structure ListFilesResult where
  files : List RawFileRecord
  nextPageToken : Option String
  hasMore : Bool
deriving Repr, DecidableEq

/-- The return shaping of `listFiles`:
`{files, nextPageToken, hasMore: !!response.data.nextPageToken}`. -/
def listFilesResult (resp : DriveListResponse) : ListFilesResult :=
  { files := resp.files,
    nextPageToken := resp.nextPageToken,
    hasMore := optTruthy resp.nextPageToken }

/-! ## Concrete fixtures used by counterexamples and witnesses -/

/-- A record with every required field present and valid. -/
def recordA : RawFileRecord :=
  { id := .strV "a", name := .strV "Alpha", mimeType := .strV "text/plain",
    size := .strV "123" }

/-- A record lacking `mimeType`. -/
def recordB : RawFileRecord := { id := .strV "b", name := .strV "Beta" }

/-- A record whose `size` is not numeric-coercible. -/
def recordC : RawFileRecord :=
  { id := .strV "c", name := .strV "Gamma", mimeType := .strV "image/png",
    size := .strV "12MB" }

/-- A fully valid record whose owner has email and permission id `p1`. -/
def recordF : RawFileRecord :=
  { id := .strV "f", name := .strV "Footer", mimeType := .strV "text/plain",
    owner := .ownerObj (.strV "dana@example.com") (.strV "Dana") .undefined
      (.strV "p1") }

/-- Environment in which `User.findOrCreate` throws for permission id
`p1`. -/
def envOwnerFail : ProcEnv := { failOwnerPids := [.strV "p1"] }

/-- A persisted token record that is expired at time 10 and carries a
refresh token. -/
def tokExpired : TokenRecord :=
  { access_token := some "at", refresh_token := some "rt", expiry_date := some 0 }

/-- Service state holding `tokExpired` as the persisted token record. -/
def stWithExpired : GState := { googleTokens := some tokExpired }

/-- Environment at time 10 in which the token refresh fails. -/
def envRefreshFail : GEnv := { now := 10, refreshResult := .error () }

/-! # Theorems -/

/-- The chunked loop of `processFiles` is a plain left fold over the whole
batch: slicing into sub-batches of 500 and folding each slice in order
visits exactly the original sequence. -/
theorem processChunks_eq_foldl :
    ∀ (env : ProcEnv) (files : List RawFileRecord) (acc : Stores × BatchResult),
      processChunks env acc files = files.foldl (processItem env) acc
  | _, [], _ => by simp [processChunks]
  | env, x :: xs, acc => by
      rw [processChunks]
      rw [processChunks_eq_foldl env (xs.drop 499)
        ((x :: xs.take 499).foldl (processItem env) acc)]
      rw [← List.foldl_append]
      congr 1
      simp
termination_by _ files _ => files.length
decreasing_by simp [List.length_drop]; omega

/-- **C3**: for the batch `[recordA, recordB, recordC]` — A fully valid, B
missing `mimeType`, C with a non-numeric `size` — with all store upserts
succeeding, `processFiles` reports `success = 1`, `failed = 2`, and the
store holds rows for all three ids: A's with `syncStatus = success`, B's
and C's with `syncStatus = error`. -/
theorem processFiles_three_record_scenario :
    (processFiles {} {} [recordA, recordB, recordC]).2.success = 1 ∧
    (processFiles {} {} [recordA, recordB, recordC]).2.failed = 2 ∧
    (processFiles {} {} [recordA, recordB, recordC]).1.files.map FileRow.fileId =
      [.strV "a", .strV "b", .strV "c"] ∧
    (processFiles {} {} [recordA, recordB, recordC]).1.files.map FileRow.status =
      [.success, .error, .error] := by
  simp only [processFiles, processChunks_eq_foldl]
  decide

/-- **C10**: the required-field check treats any falsy value as missing,
so an empty-string `id`, `name` or `mimeType` yields the corresponding
missing-required-field error and fails validation; and the numeric check
on `size` is guarded by truthiness, so a falsy `size` (`0` or `""`) never
produces an invalid-size error. -/
theorem validate_falsy_required_and_size :
    ∀ (now : Nat) (fd : RawFileRecord),
      (fd.id = .strV "" →
        "Missing required field: id" ∈ (validateFileData now fd).errors ∧
        (validateFileData now fd).isValid = false) ∧
      (fd.name = .strV "" →
        "Missing required field: name" ∈ (validateFileData now fd).errors ∧
        (validateFileData now fd).isValid = false) ∧
      (fd.mimeType = .strV "" →
        "Missing required field: mimeType" ∈ (validateFileData now fd).errors ∧
        (validateFileData now fd).isValid = false) ∧
      ((fd.size = .numV 0 ∨ fd.size = .strV "") → sizeError fd = []) := by
  intro now fd
  refine ⟨fun h => ?_, fun h => ?_, fun h => ?_, fun h => ?_⟩
  · constructor
    · simp [validateFileData, validationErrors, requiredFieldErrors, h, JsValue.truthy]
    · simp [validateFileData, validationErrors, requiredFieldErrors, h, JsValue.truthy,
        List.isEmpty_eq_false]
  · constructor
    · simp [validateFileData, validationErrors, requiredFieldErrors, h, JsValue.truthy]
    · simp [validateFileData, validationErrors, requiredFieldErrors, h, JsValue.truthy,
        List.isEmpty_eq_false]
  · constructor
    · simp [validateFileData, validationErrors, requiredFieldErrors, h, JsValue.truthy]
    · simp [validateFileData, validationErrors, requiredFieldErrors, h, JsValue.truthy,
        List.isEmpty_eq_false]
  · rcases h with h | h <;> simp [sizeError, h, JsValue.truthy]

/-- Witness for `validate_falsy_required_and_size` at an empty-string id
and a zero size. -/
theorem validate_falsy_witness :
    ("Missing required field: id" ∈
        (validateFileData 0 { id := JsValue.strV "", size := JsValue.numV 0 }).errors ∧
      (validateFileData 0 { id := JsValue.strV "", size := JsValue.numV 0 }).isValid
        = false) ∧
    sizeError { id := JsValue.strV "", size := JsValue.numV 0 } = [] :=
  ⟨(validate_falsy_required_and_size 0 _).1 rfl,
   (validate_falsy_required_and_size 0
      { id := JsValue.strV "", size := JsValue.numV 0 }).2.2.2 (Or.inl rfl)⟩

/-- A string with positive length is not empty. -/
theorem ne_empty_of_length_pos (s : String) (h : 0 < s.length) : s ≠ "" := by
  intro he
  rw [he] at h
  simp at h

/-- The modifiedTime clause built by `listFiles` is never empty. -/
theorem modClause_ne_empty (d : String) :
    ("modifiedTime > '" ++ dateToISOString d ++ "'") ≠ "" := by
  apply ne_empty_of_length_pos
  simp [String.length_append]
  exact Or.inr (by decide)

/-- **C6**: `listFiles` returns `hasMore = true` exactly when the
response's `nextPageToken` is a non-empty string (missing or empty yields
`false`), and passes the response's `nextPageToken` through unchanged. -/
theorem listFiles_pagination_contract :
    ∀ resp : DriveListResponse,
      ((listFilesResult resp).hasMore = true ↔
        ∃ s, resp.nextPageToken = some s ∧ s ≠ "") ∧
      (listFilesResult resp).nextPageToken = resp.nextPageToken := by
  intro resp
  refine ⟨?_, rfl⟩
  cases h : resp.nextPageToken <;> simp [listFilesResult, optTruthy, h]

/-- **C5**: the provider filter expression is a conjunction — with both a
modifiedTime filter and a free-text query, `q` is the modifiedTime clause
joined to the query with `" and "`; with exactly one of them, `q` is that
clause alone; with neither, `q` is omitted. -/
theorem listFiles_query_conjunction :
    ∀ (pageSize : Option Nat) (pageToken : Option String)
      (modifiedTime query : Option String),
      (optTruthy modifiedTime = true → optTruthy query = true →
        (listFilesParams pageSize pageToken modifiedTime query).q =
          some ("modifiedTime > '" ++ dateToISOString (modifiedTime.getD "") ++ "'"
            ++ " and " ++ query.getD "")) ∧
      (optTruthy modifiedTime = true → optTruthy query = false →
        (listFilesParams pageSize pageToken modifiedTime query).q =
          some ("modifiedTime > '" ++ dateToISOString (modifiedTime.getD "") ++ "'")) ∧
      (optTruthy modifiedTime = false → optTruthy query = true →
        (listFilesParams pageSize pageToken modifiedTime query).q =
          some (query.getD "")) ∧
      (optTruthy modifiedTime = false → optTruthy query = false →
        (listFilesParams pageSize pageToken modifiedTime query).q = none) := by
  intro pageSize pageToken modifiedTime query
  refine ⟨fun hm hq => ?_, fun hm hq => ?_, fun hm hq => ?_, fun hm hq => ?_⟩
  · have h1 := modClause_ne_empty (modifiedTime.getD "")
    have h2 : ("modifiedTime > '" ++ dateToISOString (modifiedTime.getD "") ++ "'"
        ++ " and " ++ query.getD "") ≠ "" := by
      apply ne_empty_of_length_pos
      simp [String.length_append]
      exact Or.inl (Or.inl (Or.inr (by decide)))
    simp [listFilesParams, listFilesQueryString, hm, hq, h1, h2]
  · have h1 := modClause_ne_empty (modifiedTime.getD "")
    simp [listFilesParams, listFilesQueryString, hm, hq, h1]
  · cases query with
    | none => simp [optTruthy] at hq
    | some q =>
        have hq' : q ≠ "" := by simpa [optTruthy] using hq
        simp [listFilesParams, listFilesQueryString, hm, hq, hq']
  · simp [listFilesParams, listFilesQueryString, hm, hq]

/-- Witness for `listFiles_query_conjunction` with both clauses given. -/
theorem listFiles_query_witness :
    (listFilesParams (some 100) none (some "2024-01-01") (some "trashed = false")).q =
      some ("modifiedTime > '" ++ dateToISOString ((some "2024-01-01").getD "") ++ "'"
        ++ " and " ++ (some "trashed = false").getD "") :=
  (listFiles_query_conjunction (some 100) none (some "2024-01-01")
    (some "trashed = false")).1 (by decide) (by decide)

/-- **C2**: every token merge preserves the last known refresh token — the
refresh path pins the stored `refresh_token` into the merged record, and
the code-exchange path keeps the existing `refresh_token` when the
exchange response's is absent or empty; a truthy stored `refresh_token` is
never replaced by a falsy one. -/
theorem token_merges_preserve_refresh_token :
    (∀ (env : GEnv) (st : GState) (tok rtoks : TokenRecord),
      st.googleTokens = some tok →
      tokenExpired env.now tok = true →
      optTruthy tok.refresh_token = true →
      env.refreshResult = .ok rtoks →
      ∃ m, (loadSavedTokens env st).1.googleTokens = some m ∧
        m.refresh_token = tok.refresh_token) ∧
    (∀ (st : GState) (ex toks merged : TokenRecord),
      st.googleTokens = some ex →
      (setCredentials (.ok toks) st).2 = .ok merged →
      (optTruthy toks.refresh_token = false →
        merged.refresh_token = ex.refresh_token) ∧
      (optTruthy ex.refresh_token = true →
        optTruthy merged.refresh_token = true)) := by
  constructor
  · intro env st tok rtoks h1 h2 h3 h4
    refine ⟨{ spreadTok tok rtoks with refresh_token := tok.refresh_token }, ?_, rfl⟩
    simp [loadSavedTokens, h1, h2, h3, h4]
  · intro st ex toks merged h1 h2
    simp only [setCredentials, h1] at h2
    obtain rfl := (Except.ok.injEq _ _).mp h2
    constructor
    · intro hf
      simp [jsOrStr, hf, Option.bind]
    · intro ht
      by_cases hf : optTruthy toks.refresh_token = true
      · simp [jsOrStr, hf]
      · simp only [Bool.not_eq_true] at hf
        simp [jsOrStr, hf, Option.bind, ht]

/-- Witness for `token_merges_preserve_refresh_token`: a refresh response
without a refresh token leaves the stored one in the merged record. -/
theorem token_merge_witness :
    ∃ m, (loadSavedTokens { now := 10, refreshResult := .ok { access_token := some "na" } }
        stWithExpired).1.googleTokens = some m ∧
      m.refresh_token = tokExpired.refresh_token :=
  (token_merges_preserve_refresh_token).1
    { now := 10, refreshResult := .ok { access_token := some "na" } }
    stWithExpired tokExpired { access_token := some "na" }
    rfl (by decide) (by decide) rfl

/-- **C8**: with the provider settings record absent, `initialize()`
returns false without throwing and leaves the service untouched; with
settings present it constructs the OAuth client, runs
`verifyAndInitializeAuth`, marks the service initialized and returns
true. -/
theorem initService_settings_gate :
    ∀ (env : GEnv) (st : GState),
      (st.googleConfig = none → initService env st = (st, false)) ∧
      (∀ cfg, st.googleConfig = some cfg →
        (initService env st).2 = true ∧
        (initService env st).1 =
          { (verifyAndInitializeAuth env (configureClient cfg st)).1 with
            markedReady := true }) := by
  intro env st
  constructor
  · intro h; simp [initService, h]
  · intro cfg h
    simp [initService, h]

/-- Witness for `initService_settings_gate` on an unconfigured state. -/
theorem initService_gate_witness :
    initService {} {} = ({}, false) :=
  (initService_settings_gate {} {}).1 rfl

/-- **C4 counterexample**: with an expired persisted token that carries a
refresh token, and a refresh that fails, `verifyAndInitializeAuth`
attempts the single refresh, ends unauthenticated and emits
`authenticationRequired` — but the persisted token record is NOT cleared
(it still holds the expired tokens), contrary to the claim that stored
tokens are invalidated on refresh failure. -/
theorem verify_refresh_failure_keeps_tokens :
    (verifyAndInitializeAuth envRefreshFail stWithExpired).1.googleTokens =
      some tokExpired ∧
    (verifyAndInitializeAuth envRefreshFail stWithExpired).1.refreshAttempts = 1 ∧
    (verifyAndInitializeAuth envRefreshFail stWithExpired).1.isAuthenticated = false ∧
    (verifyAndInitializeAuth envRefreshFail stWithExpired).1.events =
      [GEvent.authenticationRequired] := by
  decide

/-- **C4 (amended)**: on verifying an expired persisted token with a
refresh token present, exactly one refresh is attempted; on refresh
success the merged token is persisted and an authenticated event emitted
(and, when the subsequent API probe succeeds, the session ends
authenticated); on refresh failure the stored token record is left in
place (not cleared), the session ends unauthenticated, and an
authentication-required event is emitted. -/
theorem verify_expired_token_flow :
    ∀ (env : GEnv) (st : GState) (tok : TokenRecord),
      st.googleTokens = some tok →
      tokenExpired env.now tok = true →
      optTruthy tok.refresh_token = true →
      (verifyAndInitializeAuth env st).1.refreshAttempts =
        st.refreshAttempts + 1 ∧
      (∀ rtoks, env.refreshResult = .ok rtoks →
        GEvent.authenticated ∈ (verifyAndInitializeAuth env st).1.events ∧
        (env.probeOk = true →
          (verifyAndInitializeAuth env st).1.googleTokens =
            some { spreadTok tok rtoks with refresh_token := tok.refresh_token } ∧
          (verifyAndInitializeAuth env st).1.isAuthenticated = true ∧
          (verifyAndInitializeAuth env st).2 = true)) ∧
      (env.refreshResult = .error () →
        (verifyAndInitializeAuth env st).1.googleTokens = some tok ∧
        (verifyAndInitializeAuth env st).1.isAuthenticated = false ∧
        (verifyAndInitializeAuth env st).2 = false ∧
        (verifyAndInitializeAuth env st).1.events =
          st.events ++ [GEvent.authenticationRequired]) := by
  intro env st tok h1 h2 h3
  refine ⟨?_, fun rtoks hr => ⟨?_, fun hp => ?_⟩, fun hr => ?_⟩
  · cases hr : env.refreshResult with
    | ok rtoks =>
        by_cases hp : env.probeOk <;>
          simp [verifyAndInitializeAuth, loadSavedTokens, h1, h2, h3, hr, hp]
    | error e =>
        simp [verifyAndInitializeAuth, loadSavedTokens, h1, h2, h3, hr]
  · by_cases hp : env.probeOk <;>
      simp [verifyAndInitializeAuth, loadSavedTokens, h1, h2, h3, hr, hp]
  · simp [verifyAndInitializeAuth, loadSavedTokens, h1, h2, h3, hr, hp]
  · simp [verifyAndInitializeAuth, loadSavedTokens, h1, h2, h3, hr]

/-- Witness for `verify_expired_token_flow` on the failing-refresh
fixture. -/
theorem verify_expired_token_flow_witness :
    (verifyAndInitializeAuth envRefreshFail stWithExpired).1.refreshAttempts =
      stWithExpired.refreshAttempts + 1 :=
  (verify_expired_token_flow envRefreshFail stWithExpired tokExpired
    rfl (by decide) (by decide)).1

/-- **C7**: owner resolution — an owner carrying a truthy email and
permission id is found-or-created by permission id, leaving exactly one
matching row on creation; a found row whose email/displayName/photoLink
differ from the incoming values is updated in place without adding a row;
an owner lacking either property resolves to a null owner with the store
untouched. -/
theorem owner_resolution_contract :
    ∀ (failPids : List JsValue) (st : UserStore) (od : JsValue),
      ((¬ od.truthy ∨ ¬ od.emailAddress.truthy ∨ ¬ od.permissionId.truthy) →
        processOwner failPids st od = (st, none)) ∧
      (od.truthy = true → od.emailAddress.truthy = true →
        od.permissionId.truthy = true → od.permissionId ∉ failPids →
        (st.users.find? (fun u => u.permissionId == od.permissionId) = none →
          ∃ u, processOwner failPids st od =
              ({ users := st.users ++ [u], nextUid := st.nextUid + 1 }, some u) ∧
            u.permissionId = od.permissionId ∧
            u.email = od.emailAddress ∧
            u.displayName = od.displayName.orNull ∧
            u.photoLink = od.photoLink.orNull ∧
            (st.users ++ [u]).countP
              (fun w => w.permissionId == od.permissionId) = 1) ∧
        (∀ u, st.users.find? (fun w => w.permissionId == od.permissionId) = some u →
          (¬ (u.email ≠ od.emailAddress ∨ u.displayName ≠ od.displayName ∨
              u.photoLink ≠ od.photoLink) →
            processOwner failPids st od = (st, some u)) ∧
          ((u.email ≠ od.emailAddress ∨ u.displayName ≠ od.displayName ∨
              u.photoLink ≠ od.photoLink) →
            ∃ u', processOwner failPids st od =
                ({ st with users :=
                    st.users.map (fun w => if w.uid = u.uid then u' else w) },
                 some u') ∧
              u'.uid = u.uid ∧ u'.permissionId = u.permissionId ∧
              u'.email = od.emailAddress ∧
              u'.displayName = od.displayName.orNull ∧
              u'.photoLink = od.photoLink.orNull ∧
              (st.users.map (fun w => if w.uid = u.uid then u' else w)).length =
                st.users.length))) := by
  intro failPids st od
  constructor
  · intro h
    rcases h with h | h | h <;> simp [processOwner, h]
  · intro hT hE hP hF
    constructor
    · intro hfind
      refine ⟨
        { uid := st.nextUid,
          permissionId := od.permissionId,
          email := od.emailAddress,
          displayName := od.displayName.orNull,
          photoLink := od.photoLink.orNull }, ?_, rfl, rfl, rfl, rfl, ?_⟩
      · simp [processOwner, hT, hE, hP, hF, UserStore.findOrCreate, hfind]
      · have hnone := List.find?_eq_none.mp hfind
        rw [List.countP_append]
        have h0 : st.users.countP (fun w => w.permissionId == od.permissionId) = 0 :=
          List.countP_eq_zero.mpr (fun w hw => by
            simpa using hnone w hw)
        simp [h0]
    · intro u hfind
      constructor
      · intro hsame
        simp [processOwner, hT, hE, hP, hF, UserStore.findOrCreate, hfind, hsame]
      · intro hdiff
        refine ⟨
          { u with
            email := od.emailAddress,
            displayName := od.displayName.orNull,
            photoLink := od.photoLink.orNull }, ?_, rfl, rfl, rfl, rfl, rfl, ?_⟩
        · simp [processOwner, hT, hE, hP, hF, UserStore.findOrCreate, hfind, hdiff]
        · simp

/-- Witness for `owner_resolution_contract`: creating the owner of
`recordF` in an empty store yields exactly one matching row. -/
theorem owner_resolution_witness :
    ∃ u, processOwner [] ({} : UserStore) recordF.owner =
        ({ users := ({} : UserStore).users ++ [u],
           nextUid := ({} : UserStore).nextUid + 1 }, some u) ∧
      u.permissionId = recordF.owner.permissionId ∧
      u.email = recordF.owner.emailAddress ∧
      u.displayName = recordF.owner.displayName.orNull ∧
      u.photoLink = recordF.owner.photoLink.orNull ∧
      (({} : UserStore).users ++ [u]).countP
        (fun w => w.permissionId == recordF.owner.permissionId) = 1 :=
  ((owner_resolution_contract [] {} recordF.owner).2
    (by decide) (by decide) (by decide) (by decide)).1 rfl

/-- **C9**: an exception inside owner resolution (an injected store
failure in `User.findOrCreate`) is converted to a null owner by
`processOwner`'s catch; the item then proceeds with `userId = null`, and
when it otherwise validates and its upsert succeeds it is counted as a
success — no failed count, no error entry, and the user store untouched. -/
theorem owner_failure_is_not_item_failure :
    ∀ (env : ProcEnv) (st : Stores) (res : BatchResult) (fd : RawFileRecord),
      fd.owner.truthy = true →
      fd.owner.emailAddress.truthy = true →
      fd.owner.permissionId.truthy = true →
      fd.owner.permissionId ∈ env.failOwnerPids →
      (validateFileData env.now fd).isValid = true →
      env.failUpsertIds.contains fd.id = false →
      processItem env (st, res) fd =
        ({ users := st.users,
           files := upsertFile st.files (.ok
             { (validateFileData env.now fd).sanitizedData with userId := none }) },
         { res with success := res.success + 1 }) := by
  intro env st res fd h1 h2 h3 h4 h5 h6
  have hown : processOwner env.failOwnerPids st.users fd.owner = (st.users, none) := by
    simp [processOwner, h1, h2, h3, h4]
  have h6' : fd.id ∉ env.failUpsertIds := by simpa using h6
  simp [processItem, hown, h5, h6']

/-- Witness for `owner_failure_is_not_item_failure` on `recordF` with the
owner store failing for its permission id. -/
theorem owner_failure_witness :
    processItem envOwnerFail ({}, {}) recordF =
      ({ users := ({} : Stores).users,
         files := upsertFile ({} : Stores).files (.ok
           { (validateFileData envOwnerFail.now recordF).sanitizedData with
             userId := none }) },
       { ({} : BatchResult) with success := ({} : BatchResult).success + 1 }) :=
  owner_failure_is_not_item_failure envOwnerFail {} {} recordF
    (by decide) (by decide) (by decide) (by decide) (by decide) (by decide)

/-- Whichever branch an item takes, its file-store effect is one upsert. -/
theorem processItem_files_shape (env : ProcEnv) (acc : Stores × BatchResult)
    (fd : RawFileRecord) :
    (itemThrows env fd = true →
      (processItem env acc fd).1.files = upsertFile acc.1.files (degradedRow env fd)) ∧
    (itemThrows env fd = false →
      (processItem env acc fd).1.files = upsertFile acc.1.files (.ok
        { (validateFileData env.now fd).sanitizedData with
          userId := (processOwner env.failOwnerPids acc.1.users fd.owner).2.map
            (·.uid) })) := by
  obtain ⟨st, res⟩ := acc
  by_cases hv : (validateFileData env.now fd).isValid <;>
    by_cases hc : fd.id ∈ env.failUpsertIds <;>
      simp [processItem, itemFailure, itemThrows, itemErrMsg, degradedRow, hv, hc,
        List.elem_iff]

/-- The per-item effect on the failure counter. -/
theorem processItem_failed (env : ProcEnv) (acc : Stores × BatchResult)
    (fd : RawFileRecord) :
    (processItem env acc fd).2.failed =
      acc.2.failed + (if itemThrows env fd then 1 else 0) := by
  obtain ⟨st, res⟩ := acc
  by_cases hv : (validateFileData env.now fd).isValid <;>
    by_cases hc : fd.id ∈ env.failUpsertIds <;>
      simp [processItem, itemFailure, itemThrows, hv, hc, List.elem_iff,
        apply_ite BatchResult.failed]

/-- The per-item effect on the success counter. -/
theorem processItem_success (env : ProcEnv) (acc : Stores × BatchResult)
    (fd : RawFileRecord) :
    (processItem env acc fd).2.success =
      acc.2.success + (if itemThrows env fd then 0 else 1) := by
  obtain ⟨st, res⟩ := acc
  by_cases hv : (validateFileData env.now fd).isValid <;>
    by_cases hc : fd.id ∈ env.failUpsertIds <;>
      simp [processItem, itemFailure, itemThrows, hv, hc, List.elem_iff,
        apply_ite BatchResult.success]

/-- The per-item effect on the error list. -/
theorem processItem_errors (env : ProcEnv) (acc : Stores × BatchResult)
    (fd : RawFileRecord) :
    (processItem env acc fd).2.errors =
      acc.2.errors ++
        (if itemThrows env fd then [mkErrorEntry fd (itemErrMsg env fd)] else []) := by
  obtain ⟨st, res⟩ := acc
  by_cases hv : (validateFileData env.now fd).isValid <;>
    by_cases hc : fd.id ∈ env.failUpsertIds <;>
      simp [processItem, itemFailure, itemThrows, itemErrMsg, hv, hc, List.elem_iff,
        apply_ite BatchResult.errors]

/-- An upsert never removes a stored id. -/
theorem hasRowFor_upsert (rows : List FileRow) (row : FileRow) (fd : RawFileRecord)
    (h : hasRowFor rows fd = true) : hasRowFor (upsertFile rows row) fd = true := by
  unfold hasRowFor upsertFile at *
  by_cases hin : rows.any (fun r => r.fileId == row.fileId)
  · simp only [hin, if_true, List.any_map]
    obtain ⟨r, hr, hpr⟩ := List.any_eq_true.mp h
    refine List.any_eq_true.mpr ⟨r, hr, ?_⟩
    simp only [Function.comp_apply]
    by_cases heq : r.fileId = row.fileId
    · simp only [heq] at hpr ⊢
      simpa using hpr
    · simpa [heq] using hpr
  · simp only [hin, if_false, List.any_append]
    simp [h]

/-- An upsert stores the upserted row's id. -/
theorem hasRowFor_upsert_self (rows : List FileRow) (row : FileRow)
    (fd : RawFileRecord)
    (h : row.fileId = fd.id ∨ row.fileId = .strV fd.id.toStringJs) :
    hasRowFor (upsertFile rows row) fd = true := by
  have hp : (row.fileId == fd.id || row.fileId == JsValue.strV fd.id.toStringJs)
      = true := by
    rcases h with h | h <;> simp [h]
  unfold hasRowFor upsertFile
  by_cases hin : rows.any (fun r => r.fileId == row.fileId)
  · simp only [hin, if_true, List.any_map]
    obtain ⟨r, hr, hpr⟩ := List.any_eq_true.mp hin
    have heq : r.fileId = row.fileId := by simpa using hpr
    refine List.any_eq_true.mpr ⟨r, hr, ?_⟩
    simp only [Function.comp_apply]
    simpa [heq] using hp
  · simp only [hin, if_false, List.any_append]
    simp [hp]

/-- Processing an item leaves a row for that item's id. -/
theorem processItem_hasRow (env : ProcEnv) (acc : Stores × BatchResult)
    (fd : RawFileRecord) :
    hasRowFor (processItem env acc fd).1.files fd = true := by
  by_cases ht : itemThrows env fd
  · rw [(processItem_files_shape env acc fd).1 ht]
    exact hasRowFor_upsert_self _ _ _ (Or.inl rfl)
  · rw [(processItem_files_shape env acc fd).2 (by simpa using ht)]
    refine hasRowFor_upsert_self _ _ _ (Or.inr ?_)
    simp [FileRow.fileId, validateFileData, sanitizeFileData]

/-- Processing an item preserves every already-stored id. -/
theorem processItem_hasRow_mono (env : ProcEnv) (acc : Stores × BatchResult)
    (fd g : RawFileRecord) (h : hasRowFor acc.1.files g = true) :
    hasRowFor (processItem env acc fd).1.files g = true := by
  by_cases ht : itemThrows env fd
  · rw [(processItem_files_shape env acc fd).1 ht]
    exact hasRowFor_upsert _ _ _ h
  · rw [(processItem_files_shape env acc fd).2 (by simpa using ht)]
    exact hasRowFor_upsert _ _ _ h

/-- Folding a batch preserves every already-stored id. -/
theorem foldl_hasRow_mono (env : ProcEnv) (l : List RawFileRecord) :
    ∀ (acc : Stores × BatchResult) (g : RawFileRecord),
      hasRowFor acc.1.files g = true →
      hasRowFor ((l.foldl (processItem env) acc).1.files) g = true := by
  induction l with
  | nil => intro acc g h; simpa using h
  | cons x xs ih =>
      intro acc g h
      rw [List.foldl_cons]
      exact ih _ g (processItem_hasRow_mono env acc x g h)

/-- Every record of a folded batch ends with a stored row. -/
theorem foldl_hasRow (env : ProcEnv) (l : List RawFileRecord) :
    ∀ (acc : Stores × BatchResult) (fd : RawFileRecord), fd ∈ l →
      hasRowFor ((l.foldl (processItem env) acc).1.files) fd = true := by
  induction l with
  | nil => intro _ _ h; cases h
  | cons x xs ih =>
      intro acc fd hm
      rw [List.foldl_cons]
      rcases List.mem_cons.mp hm with rfl | hm'
      · exact foldl_hasRow_mono env xs _ fd (processItem_hasRow env acc fd)
      · exact ih _ fd hm'

/-- The failure counter over a fold counts the throwing items. -/
theorem foldl_failed (env : ProcEnv) (l : List RawFileRecord) :
    ∀ acc : Stores × BatchResult,
      (l.foldl (processItem env) acc).2.failed =
        acc.2.failed + (l.filter (fun fd => itemThrows env fd)).length := by
  induction l with
  | nil => intro acc; simp
  | cons x xs ih =>
      intro acc
      rw [List.foldl_cons, ih, processItem_failed]
      by_cases h : itemThrows env x
      · simp [h, List.filter_cons]
        omega
      · simp [h, List.filter_cons]

/-- The error list over a fold collects the throwing items' entries in
order. -/
theorem foldl_errors (env : ProcEnv) (l : List RawFileRecord) :
    ∀ acc : Stores × BatchResult,
      (l.foldl (processItem env) acc).2.errors =
        acc.2.errors ++ (l.filter (fun fd => itemThrows env fd)).map
          (fun fd => mkErrorEntry fd (itemErrMsg env fd)) := by
  induction l with
  | nil => intro acc; simp
  | cons x xs ih =>
      intro acc
      rw [List.foldl_cons, ih, processItem_errors]
      by_cases h : itemThrows env x <;>
        simp [h, List.filter_cons, List.append_assoc]

/-- **C1 (amended)**: an exception during validation, sanitization or the
primary upsert of one item never propagates out of the batch — that item
contributes exactly one to the failed count, appends its `{fileId, error}`
entry, and upserts the degraded row `{id, metadata: raw, syncStatus:
error, lastSyncAttempt, errorLog}`; over a whole batch the failed count
and error list are exactly those of the throwing items, and every id
observed in the batch has a stored row.  (Exceptions during owner
resolution are excluded: `processOwner` catches them and yields a null
owner — see the counterexample.) -/
theorem batch_failure_isolation :
    (∀ (env : ProcEnv) (acc : Stores × BatchResult) (fd : RawFileRecord),
      itemThrows env fd = true →
        (processItem env acc fd).2.failed = acc.2.failed + 1 ∧
        (processItem env acc fd).2.success = acc.2.success ∧
        (processItem env acc fd).2.errors =
          acc.2.errors ++ [mkErrorEntry fd (itemErrMsg env fd)] ∧
        (processItem env acc fd).1.files =
          upsertFile acc.1.files (degradedRow env fd)) ∧
    (∀ (env : ProcEnv) (st : Stores) (files : List RawFileRecord),
      (processFiles env st files).2.failed =
        (files.filter (fun fd => itemThrows env fd)).length ∧
      (processFiles env st files).2.errors =
        (files.filter (fun fd => itemThrows env fd)).map
          (fun fd => mkErrorEntry fd (itemErrMsg env fd)) ∧
      ∀ fd ∈ files, hasRowFor (processFiles env st files).1.files fd = true) := by
  constructor
  · intro env acc fd h
    refine ⟨?_, ?_, ?_, (processItem_files_shape env acc fd).1 h⟩
    · rw [processItem_failed]; simp [h]
    · rw [processItem_success]; simp [h]
    · rw [processItem_errors]; simp [h]
  · intro env st files
    refine ⟨?_, ?_, ?_⟩
    · rw [processFiles, processChunks_eq_foldl, foldl_failed]; simp
    · rw [processFiles, processChunks_eq_foldl, foldl_errors]; simp
    · intro fd hm
      rw [processFiles, processChunks_eq_foldl]
      exact foldl_hasRow env files _ fd hm

/-- Witness for `batch_failure_isolation` on the invalid `recordB`. -/
theorem batch_failure_isolation_witness :
    (processItem {} ({}, {}) recordB).2.failed = ({} : BatchResult).failed + 1 ∧
    (processItem {} ({}, {}) recordB).2.success = ({} : BatchResult).success ∧
    (processItem {} ({}, {}) recordB).2.errors =
      ({} : BatchResult).errors ++ [mkErrorEntry recordB (itemErrMsg {} recordB)] ∧
    (processItem {} ({}, {}) recordB).1.files =
      upsertFile ({} : Stores).files (degradedRow {} recordB) :=
  batch_failure_isolation.1 {} ({}, {}) recordB (by decide)

/-- **C1 counterexample**: a store exception raised during owner
resolution (injected `User.findOrCreate` failure for `recordF`'s
permission id) does not increment the failed count and records no error
entry; the otherwise-valid item is counted as a success — contrary to the
claim that owner-resolution exceptions produce a failed count and a
degraded row. -/
theorem owner_exception_not_counted_failed :
    (processFiles envOwnerFail {} [recordF]).2.failed = 0 ∧
    (processFiles envOwnerFail {} [recordF]).2.errors = [] ∧
    (processFiles envOwnerFail {} [recordF]).2.success = 1 := by
  simp only [processFiles, processChunks_eq_foldl]
  decide

end Unframe
